import Mathlib

/-!
Verification of the federated-search core of `where-its-at`
(`pkg/integrations/mega_aggregator.go` and the provider rate limiters),
as a shallow embedding in Lean 4.

Modelling conventions:
* Go `time.Time` is an absolute instant in nanoseconds since the Unix
  epoch (UTC), embedded as `Int`; `time.Duration` likewise as `Int`
  nanoseconds.
* Go `error` values are embedded as `Option GoError` with `GoError :=
  String` holding the error's message (`%v` rendering); `nil` is `none`.
* Go maps (`map[string]int`, the two cache maps) are embedded as
  association lists with last-write-wins update (`mapSet`) and key lookup
  (`mapLookup`); iteration order of a Go map is never relied upon by the
  modelled code paths.
* The concurrent fan-out of the orchestrator is abstracted by passing the
  list of `SourceResult` values drained from the fan-in channel, in drain
  order, as an explicit argument; the drain loop, dedup, sort, truncation
  and cache interaction are modelled exactly.
* `sort.Slice` is an unstable comparison sort; it is modelled by
  `List.insertionSort` over the non-strict relation `fun a b => ¬ less b a`
  induced by the Go `less` closure, which produces one of the permutations
  `sort.Slice` is allowed to produce, and the exact complement-converse
  relationship to the Go `less` functions is proved below
  (`artistLE_iff_not_less`, `eventLE_iff_not_less`).
-/

set_option maxHeartbeats 1000000

namespace WhereItsAt

abbrev GoTime := Int

abbrev GoDuration := Int

abbrev GoError := String

/-- Go `a.After(b)` on instants. -/
def timeAfter (a b : GoTime) : Bool := b < a

/-- Go `a.Before(b)` on instants. -/
def timeBefore (a b : GoTime) : Bool := a < b

def nsPerSecond : Int := 1000000000

def nsPerHour : Int := 3600000000000

def nsPerDay : Int := 86400000000000

/-- Civil (proleptic Gregorian, UTC) date from a count of days since the
Unix epoch; standard era-based conversion, used to model Go's
`time.Time.Format` date extraction. Returns `(year, month, day)`. -/
def civilFromDays (z0 : Int) : Int × Int × Int :=
  let z := z0 + 719468
  let era := Int.fdiv z 146097
  let doe := z - era * 146097
  let yoe := Int.fdiv (doe - Int.fdiv doe 1460 + Int.fdiv doe 36524 - Int.fdiv doe 146096) 365
  let y := yoe + era * 400
  let doy := doe - (365 * yoe + Int.fdiv yoe 4 - Int.fdiv yoe 100)
  let mp := Int.fdiv (5 * doy + 2) 153
  let d := doy - Int.fdiv (153 * mp + 2) 5 + 1
  let m := if mp < 10 then mp + 3 else mp - 9
  (if m ≤ 2 then y + 1 else y, m, d)

def padZeros (width : Nat) (s : String) : String :=
  if s.length < width then String.mk (List.replicate (width - s.length) '0') ++ s else s

/-- Go `t.Format("20060102")`: the instant's UTC civil date as
zero-padded `YYYYMMDD`. -/
def formatYYYYMMDD (t : GoTime) : String :=
  let ymd := civilFromDays (Int.fdiv t nsPerDay)
  padZeros 4 (toString ymd.1) ++ padZeros 2 (toString ymd.2.1) ++ padZeros 2 (toString ymd.2.2)

/-- Go `strings.ToLower` restricted to the ASCII range (all inputs the
claims touch are ASCII). -/
def goToLower (s : String) : String := String.mk (s.data.map Char.toLower)

/-- Go `strings.ReplaceAll s (string of c) ""`: delete every occurrence
of the character `c`. -/
def removeChar (s : String) (c : Char) : String :=
  String.mk (s.data.filter (fun x => x ≠ c))

/-- Association-list model of Go map lookup `v, ok := m[k]`. -/
def mapLookup {β : Type} (m : List (String × β)) (k : String) : Option β :=
  match m with
  | [] => none
  | (k2, v2) :: rest => if k2 = k then some v2 else mapLookup rest k

/-- Association-list model of Go map assignment `m[k] = v`
(overwrites any existing binding for `k`). -/
def mapSet {β : Type} (m : List (String × β)) (k : String) (v : β) : List (String × β) :=
  match m with
  | [] => [(k, v)]
  | (k2, v2) :: rest => if k2 = k then (k, v) :: rest else (k2, v2) :: mapSet rest k v

/-! ## Domain data model (`pkg/domain`) -/

/-- `domain.ExternalIDs`. -/
structure ExternalIDs where
  spotifyID : String
  lastfmID : String
deriving DecidableEq, Repr

/-- `domain.Artist`. `Popularity` is a Go `int`. -/
structure Artist where
  id : String
  name : String
  externalIDs : ExternalIDs
  genres : List String
  popularity : Int
  imageURL : String
  createdAt : GoTime
  updatedAt : GoTime
deriving DecidableEq, Repr

/-- `domain.Venue`. The `float64` latitude/longitude coordinates are
omitted: floating point, and unused by the aggregator core. -/
structure Venue where
  id : String
  name : String
  city : String
  region : String
  country : String
deriving DecidableEq, Repr

/-- `domain.EventExternalIDs`. -/
structure EventExternalIDs where
  bandsintownID : String
  ticketmasterID : String
deriving DecidableEq, Repr

/-- `domain.Event`. -/
structure Event where
  id : String
  artistID : String
  artistName : String
  title : String
  dateTime : GoTime
  venue : Venue
  ticketURL : String
  ticketStatus : String
  onSaleDate : Option GoTime
  externalIDs : EventExternalIDs
  createdAt : GoTime
  updatedAt : GoTime
  cachedUntil : GoTime
deriving DecidableEq, Repr

/-- `domain.ErrRateLimitExceeded = errors.New("rate limit exceeded")`. -/
def ErrRateLimitExceeded : GoError := "rate limit exceeded"

/-! ## Deduplicator (`mega_aggregator.go`) -/

/-- `Deduplicator.normalizeArtistName`: lowercase, then strip spaces,
periods and hyphens (three successive `strings.ReplaceAll`). -/
def normalizeArtistName (name : String) : String :=
  let name := goToLower name
  let name := removeChar name ' '
  let name := removeChar name '.'
  removeChar name '-'

/-- `Deduplicator.normalizeEventKey`:
`fmt.Sprintf("%s_%s_%s", artistKey, venueKey, dateKey)` where `venueKey`
is the venue name lowercased with spaces stripped and `dateKey` is
`DateTime.Format("20060102")`. -/
def normalizeEventKey (event : Event) : String :=
  let artistKey := normalizeArtistName event.artistName
  let venueKey := removeChar (goToLower event.venue.name) ' '
  let dateKey := formatYYYYMMDD event.dateTime
  artistKey ++ "_" ++ venueKey ++ "_" ++ dateKey

/-- The shared loop body of `DeduplicateArtists` / `DeduplicateEvents`:
walk the list, keep an element when its key is not in the `seen` set,
recording kept keys. The Go `map[string]bool` seen-set is modelled as a
list of keys with membership lookup. -/
def dedupByAux {α : Type} (key : α → String) : List α → List String → List α
  | [], _ => []
  | a :: rest, seen =>
    if key a ∈ seen then dedupByAux key rest seen
    else a :: dedupByAux key rest (key a :: seen)

def dedupBy {α : Type} (key : α → String) (l : List α) : List α := dedupByAux key l []

/-- Dedup key used by `DeduplicateArtists`. -/
def artistDedupKey (a : Artist) : String := normalizeArtistName a.name

/-- `Deduplicator.DeduplicateArtists`. -/
def DeduplicateArtists (artists : List Artist) : List Artist :=
  dedupBy artistDedupKey artists

/-- `Deduplicator.DeduplicateEvents`. -/
def DeduplicateEvents (events : List Event) : List Event :=
  dedupBy normalizeEventKey events

/-! ## Aggregated results and cache (`mega_aggregator.go`) -/

/-- `integrations.AggregatedResults`. `SourceStats` (`map[string]int`)
is an association list built in drain order with `mapSet`. -/
structure AggregatedResults where
  artists : List Artist
  events : List Event
  sourceStats : List (String × Int)
  totalResults : Int
  searchTime : GoDuration
  errors : List String
deriving DecidableEq, Repr

/-- `integrations.CacheEntry`. -/
structure CacheEntry where
  results : AggregatedResults
  expiresAt : GoTime
deriving DecidableEq, Repr

/-- `integrations.AggregatorCache`. -/
structure AggregatorCache where
  artistCache : List (String × CacheEntry)
  eventCache : List (String × CacheEntry)
  ttl : GoDuration
deriving DecidableEq, Repr

def NewAggregatorCache (ttl : GoDuration) : AggregatorCache := ⟨[], [], ttl⟩

/-- The key `fmt.Sprintf("%s_%d", query, limit)` of the artist cache. -/
def artistCacheKey (query : String) (limit : Int) : String :=
  query ++ "_" ++ toString limit

/-- The key `fmt.Sprintf("%s_%s_%d", artistName, city, limit)` of the
event cache. -/
def eventCacheKey (artistName city : String) (limit : Int) : String :=
  artistName ++ "_" ++ city ++ "_" ++ toString limit

/-- `AggregatorCache.GetArtists`; `now` is `time.Now()`. Returns `none`
("no entry") when the key is absent or `now` is after the entry's
expiry. -/
def AggregatorCache.GetArtists (c : AggregatorCache) (query : String) (limit : Int)
    (now : GoTime) : Option AggregatedResults :=
  match mapLookup c.artistCache (artistCacheKey query limit) with
  | none => none
  | some entry => if timeAfter now entry.expiresAt then none else some entry.results

/-- `AggregatorCache.SetArtists`; `now` is `time.Now()`. -/
def AggregatorCache.SetArtists (c : AggregatorCache) (query : String) (limit : Int)
    (results : AggregatedResults) (now : GoTime) : AggregatorCache :=
  { c with artistCache :=
      mapSet c.artistCache (artistCacheKey query limit) ⟨results, now + c.ttl⟩ }

/-- `AggregatorCache.GetEvents`. -/
def AggregatorCache.GetEvents (c : AggregatorCache) (artistName city : String) (limit : Int)
    (now : GoTime) : Option AggregatedResults :=
  match mapLookup c.eventCache (eventCacheKey artistName city limit) with
  | none => none
  | some entry => if timeAfter now entry.expiresAt then none else some entry.results

/-- `AggregatorCache.SetEvents`. -/
def AggregatorCache.SetEvents (c : AggregatorCache) (artistName city : String) (limit : Int)
    (results : AggregatedResults) (now : GoTime) : AggregatorCache :=
  { c with eventCache :=
      mapSet c.eventCache (eventCacheKey artistName city limit) ⟨results, now + c.ttl⟩ }

/-! ## Sorting (`sort.Slice` closures of the three search operations) -/

/-- The `less` closure of `SearchArtists`'s `sort.Slice`:
`allArtists[i].Popularity > allArtists[j].Popularity`. -/
def artistLess (a b : Artist) : Bool := a.popularity > b.popularity

/-- The non-strict order induced by `artistLess`: `a` may precede `b` in
a slice sorted by `artistLess` exactly when `¬ artistLess b a`, i.e.
popularity is non-increasing. -/
def artistLE (a b : Artist) : Prop := b.popularity ≤ a.popularity

instance : DecidableRel artistLE := fun a b =>
  inferInstanceAs (Decidable (b.popularity ≤ a.popularity))

instance : IsTotal Artist artistLE := ⟨fun a b => le_total b.popularity a.popularity⟩

instance : IsTrans Artist artistLE := ⟨fun _ _ _ h1 h2 => le_trans h2 h1⟩

/-- The `less` closure of the event `sort.Slice`: upcoming events
(`DateTime.After(now)`) before non-upcoming ones, then by
`DateTime.Before`. -/
def eventLess (now : GoTime) (a b : Event) : Bool :=
  let iUpcoming := timeAfter a.dateTime now
  let jUpcoming := timeAfter b.dateTime now
  if iUpcoming && !jUpcoming then true
  else if !iUpcoming && jUpcoming then false
  else timeBefore a.dateTime b.dateTime

/-- Partition rank of an event at reference time `now`: `0` for
upcoming, `1` for at-or-before `now`. -/
def eventRank (now : GoTime) (e : Event) : Int :=
  if timeAfter e.dateTime now then 0 else 1

/-- The non-strict order induced by `eventLess`: `a` may precede `b` in
a slice sorted by `eventLess now` exactly when `¬ eventLess now b a`. -/
def eventLE (now : GoTime) (a b : Event) : Prop :=
  eventRank now a < eventRank now b ∨
    (eventRank now a = eventRank now b ∧ a.dateTime ≤ b.dateTime)

instance (now : GoTime) : DecidableRel (eventLE now) := fun _ _ =>
  inferInstanceAs (Decidable (_ ∨ _))

instance (now : GoTime) : IsTotal Event (eventLE now) := by
  refine ⟨fun a b => ?_⟩
  unfold eventLE
  rcases lt_trichotomy (eventRank now a) (eventRank now b) with h | h | h
  · exact Or.inl (Or.inl h)
  · rcases le_total a.dateTime b.dateTime with h2 | h2
    · exact Or.inl (Or.inr ⟨h, h2⟩)
    · exact Or.inr (Or.inr ⟨h.symm, h2⟩)
  · exact Or.inr (Or.inl h)

instance (now : GoTime) : IsTrans Event (eventLE now) := by
  refine ⟨fun a b c h1 h2 => ?_⟩
  unfold eventLE at h1 h2 ⊢
  rcases h1 with h1 | ⟨h1, h1d⟩ <;> rcases h2 with h2 | ⟨h2, h2d⟩
  · exact Or.inl (lt_trans h1 h2)
  · exact Or.inl (h2 ▸ h1)
  · exact Or.inl (h1 ▸ h2)
  · exact Or.inr ⟨h1.trans h2, le_trans h1d h2d⟩

/-- Model of `sort.Slice(allArtists, less)` in `SearchArtists`. -/
def sortArtists (l : List Artist) : List Artist := List.insertionSort artistLE l

/-- Model of `sort.Slice(allEvents, less)` in `SearchEvents` /
`SearchEventsByLocation`, where `now := time.Now()` read just before
sorting. -/
def sortEvents (now : GoTime) (l : List Event) : List Event :=
  List.insertionSort (eventLE now) l

/-! ## Fan-out orchestrator (`mega_aggregator.go`) -/

/-- `integrations.SourceResult`. -/
structure SourceResult where
  sourceName : String
  artists : List Artist
  events : List Event
  error : Option GoError
deriving DecidableEq, Repr

/-- Go `fmt.Sprintf("%s: %v", result.SourceName, result.Error)`. -/
def formatSourceError (r : SourceResult) (e : GoError) : String :=
  r.sourceName ++ ": " ++ e

/-- One iteration of the channel-drain loop (`for result := range
resultsChan`), generic in the item field (`Artists` for artist search,
`Events` for event search). The accumulator is
`(merged items, sourceStats, errors)`. -/
def drainStep {α : Type} (items : SourceResult → List α)
    (acc : List α × List (String × Int) × List String) (r : SourceResult) :
    List α × List (String × Int) × List String :=
  match r.error with
  | some e => (acc.1, acc.2.1, acc.2.2 ++ [formatSourceError r e])
  | none =>
      (acc.1 ++ items r, mapSet acc.2.1 r.sourceName ((items r).length : Int), acc.2.2)

/-- The full drain loop over the `SourceResult`s received from the
fan-in channel, in drain order. -/
def drain {α : Type} (items : SourceResult → List α) (results : List SourceResult) :
    List α × List (String × Int) × List String :=
  results.foldl (drainStep items) ([], [], [])

def drainArtists (results : List SourceResult) : List Artist × List (String × Int) × List String :=
  drain (fun r => r.artists) results

def drainEvents (results : List SourceResult) : List Event × List (String × Int) × List String :=
  drain (fun r => r.events) results

/-- `integrations.MegaAggregatorConfig`. -/
structure MegaAggregatorConfig where
  maxConcurrentRequests : Int
  requestTimeout : GoDuration
  cacheEnabled : Bool
  cacheTTL : GoDuration
  deduplicationEnabled : Bool
  includeScrapers : Bool
  maxResultsPerSource : Int
deriving DecidableEq, Repr

/-- `integrations.MegaAggregator`, restricted to the state the modelled
operations read and write: the configuration and the cache (`m.cache`
is `nil` exactly when `CacheEnabled` was false at construction). The
source/scraper registries are abstracted by the `sourceResults`
argument of each search operation. -/
structure MegaAggregator where
  config : MegaAggregatorConfig
  cache : Option AggregatorCache
deriving DecidableEq, Repr

/-- Go `if limit <= 0 { limit = 50 }`. -/
def effectiveLimit (limit : Int) : Int := if limit ≤ 0 then 50 else limit

/-- Go `if len(l) > limit { l = l[:limit] }`. -/
def truncateTo {α : Type} (limit : Int) (l : List α) : List α :=
  if (l.length : Int) > limit then l.take limit.toNat else l

/-- The miss path of `MegaAggregator.SearchArtists` after the cache
check: drain, optional dedup, sort, truncate, wrap, write-through.
`limit` is already the effective limit; `now` is the wall clock
(`time.Now()`), `elapsed` the measured `SearchTime`. Returns the Go
`(*AggregatedResults, error)` pair plus the aggregator with its updated
cache. -/
def MegaAggregator.searchArtistsCompute (m : MegaAggregator) (query : String) (limit : Int)
    (sourceResults : List SourceResult) (now : GoTime) (elapsed : GoDuration) :
    (AggregatedResults × Option GoError) × MegaAggregator :=
  let drained := drainArtists sourceResults
  let allArtists := drained.1
  let sourceStats := drained.2.1
  let errors := drained.2.2
  let allArtists := if m.config.deduplicationEnabled then DeduplicateArtists allArtists else allArtists
  let allArtists := sortArtists allArtists
  let allArtists := truncateTo limit allArtists
  let results : AggregatedResults :=
    { artists := allArtists
      events := []
      sourceStats := sourceStats
      totalResults := (allArtists.length : Int)
      searchTime := elapsed
      errors := errors }
  ((results, none),
   { m with cache := m.cache.map (fun c => c.SetArtists query limit results now) })

/-- `MegaAggregator.SearchArtists`. -/
def MegaAggregator.SearchArtists (m : MegaAggregator) (query : String) (limit : Int)
    (sourceResults : List SourceResult) (now : GoTime) (elapsed : GoDuration) :
    (AggregatedResults × Option GoError) × MegaAggregator :=
  let limit := effectiveLimit limit
  match m.cache with
  | some c =>
      match c.GetArtists query limit now with
      | some cached => ((cached, none), m)
      | none => m.searchArtistsCompute query limit sourceResults now elapsed
  | none => m.searchArtistsCompute query limit sourceResults now elapsed

/-- The shared miss path of `MegaAggregator.SearchEvents` (`city = ""`)
and `MegaAggregator.SearchEventsByLocation` (`artistName = ""`) after
the cache check. -/
def MegaAggregator.searchEventsCompute (m : MegaAggregator) (artistName city : String)
    (limit : Int) (sourceResults : List SourceResult) (now : GoTime) (elapsed : GoDuration) :
    (AggregatedResults × Option GoError) × MegaAggregator :=
  let drained := drainEvents sourceResults
  let allEvents := drained.1
  let sourceStats := drained.2.1
  let errors := drained.2.2
  let allEvents := if m.config.deduplicationEnabled then DeduplicateEvents allEvents else allEvents
  let allEvents := sortEvents now allEvents
  let allEvents := truncateTo limit allEvents
  let results : AggregatedResults :=
    { artists := []
      events := allEvents
      sourceStats := sourceStats
      totalResults := (allEvents.length : Int)
      searchTime := elapsed
      errors := errors }
  ((results, none),
   { m with cache := m.cache.map (fun c => c.SetEvents artistName city limit results now) })

/-- `MegaAggregator.SearchEvents` (artist-based event search; caches
under `(artistName, "", limit)`). -/
def MegaAggregator.SearchEvents (m : MegaAggregator) (artistName : String) (limit : Int)
    (sourceResults : List SourceResult) (now : GoTime) (elapsed : GoDuration) :
    (AggregatedResults × Option GoError) × MegaAggregator :=
  let limit := effectiveLimit limit
  match m.cache with
  | some c =>
      match c.GetEvents artistName "" limit now with
      | some cached => ((cached, none), m)
      | none => m.searchEventsCompute artistName "" limit sourceResults now elapsed
  | none => m.searchEventsCompute artistName "" limit sourceResults now elapsed

/-- `MegaAggregator.SearchEventsByLocation` (caches under
`("", city, limit)`; the `country` argument does not enter the cache
key or the pipeline). -/
def MegaAggregator.SearchEventsByLocation (m : MegaAggregator) (city : String) (limit : Int)
    (sourceResults : List SourceResult) (now : GoTime) (elapsed : GoDuration) :
    (AggregatedResults × Option GoError) × MegaAggregator :=
  let limit := effectiveLimit limit
  match m.cache with
  | some c =>
      match c.GetEvents "" city limit now with
      | some cached => ((cached, none), m)
      | none => m.searchEventsCompute "" city limit sourceResults now elapsed
  | none => m.searchEventsCompute "" city limit sourceResults now elapsed

/-! ## Rate limiters -/

/-- The Bandsintown fixed-window daily `rateLimiter`
(`bandsintown.go`). -/
structure rateLimiter where
  requests : Int
  windowStart : GoTime
  dailyLimit : Int
deriving DecidableEq, Repr

/-- `newRateLimiter(dailyLimit)`; `now` is the construction-time
`time.Now()`. -/
def newRateLimiter (dailyLimit : Int) (now : GoTime) : rateLimiter :=
  { requests := 0, windowStart := now, dailyLimit := dailyLimit }

/-- `rateLimiter.Allow`; `now` is `time.Now()` read inside the call.
Returns the Go `error` and the mutated state. -/
def rateLimiter.Allow (r : rateLimiter) (now : GoTime) : Option GoError × rateLimiter :=
  let r := if now - r.windowStart > 24 * nsPerHour
    then { r with requests := 0, windowStart := now } else r
  if r.requests ≥ r.dailyLimit then (some ErrRateLimitExceeded, r)
  else (none, { r with requests := r.requests + 1 })

/-- A sequence of `Allow` calls at the given instants, collecting each
call's returned error. -/
def rateLimiter.allowSeq (r : rateLimiter) : List GoTime → List (Option GoError) × rateLimiter
  | [] => ([], r)
  | t :: ts =>
      let step := r.Allow t
      let rest := step.2.allowSeq ts
      (step.1 :: rest.1, rest.2)

/-- The MusicBrainz minimum-interval throttle
(`sources/music/soundcloud.go`). -/
structure musicBrainzRateLimiter where
  lastRequest : GoTime
  interval : GoDuration
deriving DecidableEq, Repr

/-- `newMusicBrainzRateLimiter()`: zero `lastRequest`, one-second
interval. -/
def newMusicBrainzRateLimiter : musicBrainzRateLimiter :=
  { lastRequest := 0, interval := nsPerSecond }

/-- `musicBrainzRateLimiter.Allow`; `now` is the `time.Now()` read at
entry. `time.Sleep(sleepTime)` is modelled as advancing the clock by
exactly `sleepTime`, after which `r.lastRequest = time.Now()` stores the
post-sleep instant. Always returns `nil`. -/
def musicBrainzRateLimiter.Allow (r : musicBrainzRateLimiter) (now : GoTime) :
    Option GoError × musicBrainzRateLimiter :=
  let sleepTime := if now - r.lastRequest < r.interval
    then r.interval - (now - r.lastRequest) else 0
  let nowAfterSleep := now + sleepTime
  (none, { r with lastRequest := nowAfterSleep })

/-! ## Derived specification-side predicates and sample values -/

/-- The stats component of the drain loop in isolation: fold the
successful results' `sourceStats[name] = count` assignments. -/
def statsAcc {α : Type} (f : SourceResult → List α) (s : List (String × Int)) :
    List SourceResult → List (String × Int)
  | [] => s
  | r :: rest =>
      statsAcc f
        (match r.error with
         | some _ => s
         | none => mapSet s r.sourceName ((f r).length : Int)) rest

/-- Artists ordered by non-increasing popularity (the order enforced by
`SearchArtists`'s `sort.Slice`). -/
def popSorted (l : List Artist) : Prop := l.Pairwise artistLE

/-- Events in the two-level order of the event `sort.Slice` taken at
reference time `t`: upcoming-first, ascending start time within each
partition. -/
def eventsSortedAt (t : GoTime) (l : List Event) : Prop := l.Pairwise (eventLE t)

/-- Well-formedness of the cache as maintained by the aggregator: every
stored artist result is popularity-sorted, and every stored event result
is two-level sorted with respect to some reference time (the wall clock
of the call that computed it). -/
def CacheGood : Option AggregatorCache → Prop
  | none => True
  | some c =>
      (∀ p ∈ c.artistCache, popSorted p.2.results.artists)
      ∧ (∀ p ∈ c.eventCache, ∃ t, eventsSortedAt t p.2.results.events)

/-- Count-consistency of the cache as maintained by the aggregator: every
stored artist result has `totalResults` equal to the length of its artist
list, and every stored event result has `totalResults` equal to the
length of its event list. -/
def CacheCounts : Option AggregatorCache → Prop
  | none => True
  | some c =>
      (∀ p ∈ c.artistCache, p.2.results.totalResults = (p.2.results.artists.length : Int))
      ∧ (∀ p ∈ c.eventCache, p.2.results.totalResults = (p.2.results.events.length : Int))

/-- The artist-search cache lookup of this call misses (or the cache is
disabled), so the call takes the compute path. -/
def artistCacheMiss (m : MegaAggregator) (query : String) (limit : Int) (now : GoTime) : Prop :=
  ∀ c, m.cache = some c → c.GetArtists query (effectiveLimit limit) now = none

/-- The event-search cache lookup of this call misses (or the cache is
disabled). -/
def eventCacheMiss (m : MegaAggregator) (artistName city : String) (limit : Int)
    (now : GoTime) : Prop :=
  ∀ c, m.cache = some c → c.GetEvents artistName city (effectiveLimit limit) now = none

/-- A configuration with deduplication enabled and caching disabled. -/
def configDedupNoCache : MegaAggregatorConfig :=
  { maxConcurrentRequests := 10, requestTimeout := 30 * nsPerSecond, cacheEnabled := false,
    cacheTTL := nsPerHour, deduplicationEnabled := true, includeScrapers := false,
    maxResultsPerSource := 20 }

/-- Aggregator with dedup on and no cache (the §8 Radiohead scenario). -/
def aggDedupNoCache : MegaAggregator := { config := configDedupNoCache, cache := none }

/-- Source A's artist in the §8 scenario: `{name:"Radiohead", popularity:90}`. -/
def artistRadiohead : Artist :=
  { id := "a1", name := "Radiohead", externalIDs := ⟨"", ""⟩, genres := [],
    popularity := 90, imageURL := "", createdAt := 0, updatedAt := 0 }

/-- Source B's artist in the §8 scenario: `{name:"radiohead.", popularity:70}`. -/
def artistRadioheadDot : Artist :=
  { id := "b1", name := "radiohead.", externalIDs := ⟨"", ""⟩, genres := [],
    popularity := 70, imageURL := "", createdAt := 0, updatedAt := 0 }

/-- Source A's `SourceResult` for the §8 scenario. -/
def resultSourceA : SourceResult :=
  { sourceName := "sourceA", artists := [artistRadiohead], events := [], error := none }

/-- Source B's `SourceResult` for the §8 scenario. -/
def resultSourceB : SourceResult :=
  { sourceName := "sourceB", artists := [artistRadioheadDot], events := [], error := none }

/-- Aggregator with caching enabled (fresh empty cache, 1h TTL) and
deduplication disabled. -/
def aggWithCache : MegaAggregator :=
  { config := { configDedupNoCache with cacheEnabled := true, deduplicationEnabled := false },
    cache := some (NewAggregatorCache nsPerHour) }

/-- An event starting at instant 10. -/
def eventEarly : Event :=
  { id := "e1", artistID := "a", artistName := "x", title := "early", dateTime := 10,
    venue := ⟨"v1", "Venue One", "Berlin", "", "DE"⟩, ticketURL := "", ticketStatus := "",
    onSaleDate := none, externalIDs := ⟨"", ""⟩, createdAt := 0, updatedAt := 0,
    cachedUntil := 0 }

/-- An event starting at instant 1000000. -/
def eventLate : Event :=
  { eventEarly with
    id := "e2", title := "late", dateTime := 1000000,
    venue := ⟨"v2", "Venue Two", "Berlin", "", "DE"⟩ }

/-- A successful event `SourceResult` carrying both sample events. -/
def resultEventsSource : SourceResult :=
  { sourceName := "ev", artists := [], events := [eventEarly, eventLate], error := none }

/-- An arbitrary aggregated-results value used as a cache payload in
concrete instantiations. -/
def sampleResults : AggregatedResults :=
  { artists := [artistRadiohead], events := [], sourceStats := [("sourceA", 1)],
    totalResults := 1, searchTime := 5, errors := [] }

/-! ## Helper lemmas -/

theorem artistLE_iff_not_less (a b : Artist) : artistLE a b ↔ ¬ artistLess b a = true := by
  simp [artistLE, artistLess, not_lt]

theorem eventLE_iff_not_less (now : GoTime) (a b : Event) :
    eventLE now a b ↔ ¬ eventLess now b a = true := by
  unfold eventLE eventLess eventRank timeAfter timeBefore
  by_cases ha : now < a.dateTime <;> by_cases hb : now < b.dateTime <;>
    simp [ha, hb, not_lt]

theorem mapLookup_mapSet_self {β : Type} (m : List (String × β)) (k : String) (v : β) :
    mapLookup (mapSet m k v) k = some v := by
  induction m with
  | nil => simp [mapSet, mapLookup]
  | cons p rest ih =>
      by_cases h : p.1 = k <;> simp [mapSet, mapLookup, h, ih]

theorem mapLookup_mapSet_ne {β : Type} (m : List (String × β)) (k k2 : String) (v : β)
    (h : k2 ≠ k) : mapLookup (mapSet m k v) k2 = mapLookup m k2 := by
  have hk : ¬ k = k2 := fun h2 => h h2.symm
  induction m with
  | nil => simp [mapSet, mapLookup, hk]
  | cons p rest ih =>
      by_cases hp : p.1 = k
      · simp [mapSet, mapLookup, hp, hk]
      · simp only [mapSet, if_neg hp, mapLookup]
        by_cases hp2 : p.1 = k2 <;> simp [hp2, ih]

theorem mapLookup_mem {β : Type} {m : List (String × β)} {k : String} {v : β}
    (h : mapLookup m k = some v) : (k, v) ∈ m := by
  induction m with
  | nil => simp [mapLookup] at h
  | cons p rest ih =>
      by_cases hp : p.1 = k
      · simp only [mapLookup, if_pos hp] at h
        cases h
        obtain ⟨p1, p2⟩ := p
        simp only at hp
        subst hp
        exact List.mem_cons_self _ _
      · simp only [mapLookup, if_neg hp] at h
        exact List.mem_cons_of_mem _ (ih h)

theorem mem_mapSet {β : Type} {m : List (String × β)} {k : String} {v : β} {p : String × β}
    (h : p ∈ mapSet m k v) : p = (k, v) ∨ p ∈ m := by
  induction m with
  | nil => simpa [mapSet] using h
  | cons q rest ih =>
      by_cases hq : q.1 = k
      · simp only [mapSet, if_pos hq] at h
        rcases List.mem_cons.1 h with h | h
        · exact Or.inl h
        · exact Or.inr (List.mem_cons_of_mem _ h)
      · simp only [mapSet, if_neg hq] at h
        rcases List.mem_cons.1 h with h | h
        · exact Or.inr (h ▸ List.mem_cons_self _ _)
        · rcases ih h with h | h
          · exact Or.inl h
          · exact Or.inr (List.mem_cons_of_mem _ h)

theorem dedupByAux_sublist {α : Type} (key : α → String) :
    ∀ (l : List α) (seen : List String), List.Sublist (dedupByAux key l seen) l
  | [], _ => List.Sublist.slnil
  | a :: rest, seen => by
      unfold dedupByAux
      split
      · exact List.Sublist.cons a (dedupByAux_sublist key rest seen)
      · exact List.Sublist.cons₂ a (dedupByAux_sublist key rest _)

theorem dedupByAux_countP {α : Type} (key : α → String) (k : String) :
    ∀ (l : List α) (seen : List String),
      (dedupByAux key l seen).countP (fun a => key a == k)
        = if k ∈ seen then 0 else if l.any (fun a => key a == k) then 1 else 0
  | [], seen => by simp [dedupByAux]
  | a :: rest, seen => by
      by_cases h1 : key a ∈ seen
      · rw [show dedupByAux key (a :: rest) seen = dedupByAux key rest seen from by
              simp [dedupByAux, h1]]
        rw [dedupByAux_countP key k rest seen]
        by_cases hk : k ∈ seen
        · simp [hk]
        · have hak : ¬ key a = k := fun h => hk (h ▸ h1)
          have hbeq : (key a == k) = false := beq_eq_false_iff_ne.mpr hak
          simp [hk, List.any_cons, hbeq]
      · rw [show dedupByAux key (a :: rest) seen
              = a :: dedupByAux key rest (key a :: seen) from by simp [dedupByAux, h1]]
        rw [List.countP_cons, dedupByAux_countP key k rest (key a :: seen)]
        by_cases hak : key a = k
        · subst hak
          simp [h1, List.any_cons]
        · have hbeq : (key a == k) = false := beq_eq_false_iff_ne.mpr hak
          have hka : ¬ k = key a := fun h => hak h.symm
          have hmem : (k ∈ key a :: seen) ↔ (k ∈ seen) := by
            simp [List.mem_cons, hka]
          by_cases hk : k ∈ seen
          · simp [hmem, hk, hbeq]
          · simp [hmem, hk, hbeq, List.any_cons]

theorem dedupByAux_first {α : Type} (key : α → String) :
    ∀ (l : List α) (seen : List String) (b : α), b ∈ dedupByAux key l seen →
      key b ∉ seen ∧ l.find? (fun x => key x == key b) = some b
  | [], _, b, hb => by simp [dedupByAux] at hb
  | a :: rest, seen, b, hb => by
      by_cases h1 : key a ∈ seen
      · simp only [dedupByAux, if_pos h1] at hb
        obtain ⟨hns, hf⟩ := dedupByAux_first key rest seen b hb
        refine ⟨hns, ?_⟩
        have hab : ¬ key a = key b := fun h => hns (h ▸ h1)
        have hbeq : (key a == key b) = false := beq_eq_false_iff_ne.mpr hab
        simp [List.find?, hbeq, hf]
      · simp only [dedupByAux, if_neg h1] at hb
        rcases List.mem_cons.1 hb with hb | hb
        · subst hb
          exact ⟨h1, by simp [List.find?]⟩
        · obtain ⟨hns, hf⟩ := dedupByAux_first key rest (key a :: seen) b hb
          have hab : ¬ key a = key b := fun h => hns (by simp [h])
          have hns2 : key b ∉ seen := fun h => hns (List.mem_cons_of_mem _ h)
          refine ⟨hns2, ?_⟩
          have hbeq : (key a == key b) = false := beq_eq_false_iff_ne.mpr hab
          simp [List.find?, hbeq, hf]

theorem drain_foldl_spec {α : Type} (f : SourceResult → List α) :
    ∀ (results : List SourceResult) (i : List α) (s : List (String × Int)) (e : List String),
      results.foldl (drainStep f) (i, s, e)
        = (i ++ ((results.filter (fun r => r.error == none)).map f).flatten,
           statsAcc f s results,
           e ++ results.filterMap (fun r => r.error.map (formatSourceError r)))
  | [], i, s, e => by simp [statsAcc]
  | r :: rest, i, s, e => by
      cases herr : r.error with
      | some msg =>
          simp only [List.foldl_cons, drainStep, herr]
          rw [drain_foldl_spec f rest]
          simp [statsAcc, herr, List.append_assoc]
      | none =>
          simp only [List.foldl_cons, drainStep, herr]
          rw [drain_foldl_spec f rest]
          simp [statsAcc, herr, List.append_assoc]

theorem drain_spec {α : Type} (f : SourceResult → List α) (results : List SourceResult) :
    drain f results
      = (((results.filter (fun r => r.error == none)).map f).flatten,
         statsAcc f [] results,
         results.filterMap (fun r => r.error.map (formatSourceError r))) := by
  unfold drain
  rw [drain_foldl_spec]
  simp

theorem statsAcc_lookup_nomatch {α : Type} (f : SourceResult → List α) (n : String) :
    ∀ (results : List SourceResult) (s : List (String × Int)),
      (∀ r ∈ results, r.sourceName ≠ n) →
      mapLookup (statsAcc f s results) n = mapLookup s n
  | [], s, _ => rfl
  | r :: rest, s, h => by
      have hr : r.sourceName ≠ n := h r (List.mem_cons_self _ _)
      have hrest : ∀ x ∈ rest, x.sourceName ≠ n := fun x hx => h x (List.mem_cons_of_mem _ hx)
      cases herr : r.error with
      | some msg => simpa [statsAcc, herr] using statsAcc_lookup_nomatch f n rest s hrest
      | none =>
          simp only [statsAcc, herr]
          rw [statsAcc_lookup_nomatch f n rest _ hrest, mapLookup_mapSet_ne _ _ _ _ hr.symm]

theorem statsAcc_lookup {α : Type} (f : SourceResult → List α) (n : String) :
    ∀ (results : List SourceResult) (s : List (String × Int)),
      (results.map (fun r => r.sourceName)).Nodup →
      mapLookup s n = none →
      mapLookup (statsAcc f s results) n
        = (results.find? (fun r => r.sourceName == n && r.error.isNone)).map
            (fun r => ((f r).length : Int))
  | [], s, _, hs => by simpa [statsAcc]
  | r :: rest, s, hnd, hs => by
      have hnd2 : (rest.map (fun r => r.sourceName)).Nodup := (List.nodup_cons.1 hnd).2
      have hnotin : r.sourceName ∉ rest.map (fun r => r.sourceName) := (List.nodup_cons.1 hnd).1
      cases herr : r.error with
      | some msg =>
          by_cases hn : r.sourceName = n
          · have hrest : ∀ x ∈ rest, x.sourceName ≠ n := by
              intro x hx he
              exact hnotin (hn ▸ he ▸ List.mem_map_of_mem _ hx)
            rw [show statsAcc f s (r :: rest) = statsAcc f s rest from by simp [statsAcc, herr]]
            rw [statsAcc_lookup_nomatch f n rest s hrest, hs]
            have hfr : (rest.find? (fun x => x.sourceName == n && x.error.isNone)) = none := by
              rw [List.find?_eq_none]
              intro x hx
              simp [hrest x hx]
            simp [List.find?, herr, hfr]
          · rw [show statsAcc f s (r :: rest) = statsAcc f s rest from by simp [statsAcc, herr]]
            rw [statsAcc_lookup f n rest s hnd2 hs]
            have hbeq : (r.sourceName == n) = false := beq_eq_false_iff_ne.mpr hn
            simp [List.find?, hbeq]
      | none =>
          by_cases hn : r.sourceName = n
          · have hrest : ∀ x ∈ rest, x.sourceName ≠ n := by
              intro x hx he
              exact hnotin (hn ▸ he ▸ List.mem_map_of_mem _ hx)
            rw [show statsAcc f s (r :: rest)
                  = statsAcc f (mapSet s r.sourceName ((f r).length : Int)) rest from by
                simp [statsAcc, herr]]
            rw [statsAcc_lookup_nomatch f n rest _ hrest, hn, mapLookup_mapSet_self]
            simp [List.find?, hn, herr]
          · rw [show statsAcc f s (r :: rest)
                  = statsAcc f (mapSet s r.sourceName ((f r).length : Int)) rest from by
                simp [statsAcc, herr]]
            have hs2 : mapLookup (mapSet s r.sourceName ((f r).length : Int)) n = none := by
              rw [mapLookup_mapSet_ne _ _ _ _ (fun h => hn h.symm), hs]
            rw [statsAcc_lookup f n rest _ hnd2 hs2]
            have hbeq : (r.sourceName == n) = false := beq_eq_false_iff_ne.mpr hn
            simp [List.find?, hbeq]

theorem truncateTo_length_le {α : Type} (k : Int) (hk : 0 < k) (l : List α) :
    ((truncateTo k l).length : Int) ≤ k := by
  unfold truncateTo
  split
  · rw [List.length_take]
    omega
  · omega

theorem pairwise_truncateTo {α : Type} {r : α → α → Prop} (k : Int) {l : List α}
    (h : l.Pairwise r) : (truncateTo k l).Pairwise r := by
  unfold truncateTo
  split
  · exact h.sublist (List.take_sublist _ _)
  · exact h

theorem truncateTo_nil {α : Type} (k : Int) : truncateTo k ([] : List α) = [] := by
  unfold truncateTo
  split <;> simp

theorem effectiveLimit_pos (limit : Int) : 0 < effectiveLimit limit := by
  unfold effectiveLimit
  split <;> omega

theorem popSorted_sortArtists (l : List Artist) : popSorted (sortArtists l) :=
  List.sorted_insertionSort artistLE l

theorem eventsSortedAt_sortEvents (t : GoTime) (l : List Event) :
    eventsSortedAt t (sortEvents t l) :=
  List.sorted_insertionSort (eventLE t) l

theorem searchArtists_miss (m : MegaAggregator) (q : String) (lim : Int)
    (srs : List SourceResult) (now : GoTime) (el : GoDuration)
    (h : artistCacheMiss m q lim now) :
    m.SearchArtists q lim srs now el
      = m.searchArtistsCompute q (effectiveLimit lim) srs now el := by
  rcases hc : m.cache with _ | c
  · simp [MegaAggregator.SearchArtists, hc]
  · simp [MegaAggregator.SearchArtists, hc, h c hc]

theorem searchEvents_miss (m : MegaAggregator) (aName : String) (lim : Int)
    (srs : List SourceResult) (now : GoTime) (el : GoDuration)
    (h : eventCacheMiss m aName "" lim now) :
    m.SearchEvents aName lim srs now el
      = m.searchEventsCompute aName "" (effectiveLimit lim) srs now el := by
  rcases hc : m.cache with _ | c
  · simp [MegaAggregator.SearchEvents, hc]
  · simp [MegaAggregator.SearchEvents, hc, h c hc]

theorem searchEventsByLocation_miss (m : MegaAggregator) (city : String) (lim : Int)
    (srs : List SourceResult) (now : GoTime) (el : GoDuration)
    (h : eventCacheMiss m "" city lim now) :
    m.SearchEventsByLocation city lim srs now el
      = m.searchEventsCompute "" city (effectiveLimit lim) srs now el := by
  rcases hc : m.cache with _ | c
  · simp [MegaAggregator.SearchEventsByLocation, hc]
  · simp [MegaAggregator.SearchEventsByLocation, hc, h c hc]

theorem searchArtists_error_none (m : MegaAggregator) (q : String) (lim : Int)
    (srs : List SourceResult) (now : GoTime) (el : GoDuration) :
    (m.SearchArtists q lim srs now el).1.2 = none := by
  rcases hc : m.cache with _ | c
  · simp [MegaAggregator.SearchArtists, hc, MegaAggregator.searchArtistsCompute]
  · rcases hg : c.GetArtists q (effectiveLimit lim) now with _ | r
    · simp [MegaAggregator.SearchArtists, hc, hg, MegaAggregator.searchArtistsCompute]
    · simp [MegaAggregator.SearchArtists, hc, hg]

theorem searchEvents_error_none (m : MegaAggregator) (aName : String) (lim : Int)
    (srs : List SourceResult) (now : GoTime) (el : GoDuration) :
    (m.SearchEvents aName lim srs now el).1.2 = none := by
  rcases hc : m.cache with _ | c
  · simp [MegaAggregator.SearchEvents, hc, MegaAggregator.searchEventsCompute]
  · rcases hg : c.GetEvents aName "" (effectiveLimit lim) now with _ | r
    · simp [MegaAggregator.SearchEvents, hc, hg, MegaAggregator.searchEventsCompute]
    · simp [MegaAggregator.SearchEvents, hc, hg]

theorem searchEventsByLocation_error_none (m : MegaAggregator) (city : String) (lim : Int)
    (srs : List SourceResult) (now : GoTime) (el : GoDuration) :
    (m.SearchEventsByLocation city lim srs now el).1.2 = none := by
  rcases hc : m.cache with _ | c
  · simp [MegaAggregator.SearchEventsByLocation, hc, MegaAggregator.searchEventsCompute]
  · rcases hg : c.GetEvents "" city (effectiveLimit lim) now with _ | r
    · simp [MegaAggregator.SearchEventsByLocation, hc, hg, MegaAggregator.searchEventsCompute]
    · simp [MegaAggregator.SearchEventsByLocation, hc, hg]

theorem cacheGood_setArtists {c : AggregatorCache} (hg : CacheGood (some c))
    (q : String) (lim : Int) (r : AggregatedResults) (now : GoTime)
    (hr : popSorted r.artists) : CacheGood (some (c.SetArtists q lim r now)) := by
  obtain ⟨hA, hE⟩ := hg
  refine ⟨?_, ?_⟩
  · intro p hp
    rcases mem_mapSet hp with h | h
    · subst h
      exact hr
    · exact hA p h
  · intro p hp
    exact hE p hp

theorem cacheGood_setEvents {c : AggregatorCache} (hg : CacheGood (some c))
    (aName city : String) (lim : Int) (r : AggregatedResults) (now : GoTime)
    (hr : ∃ t, eventsSortedAt t r.events) :
    CacheGood (some (c.SetEvents aName city lim r now)) := by
  obtain ⟨hA, hE⟩ := hg
  refine ⟨?_, ?_⟩
  · intro p hp
    exact hA p hp
  · intro p hp
    rcases mem_mapSet hp with h | h
    · subst h
      exact hr
    · exact hE p h

theorem getArtists_sorted {c : AggregatorCache} (hg : CacheGood (some c))
    {q : String} {lim : Int} {now : GoTime} {r : AggregatedResults}
    (h : c.GetArtists q lim now = some r) : popSorted r.artists := by
  unfold AggregatorCache.GetArtists at h
  rcases hl : mapLookup c.artistCache (artistCacheKey q lim) with _ | entry
  · rw [hl] at h
    cases h
  · rw [hl] at h
    cases hexp : timeAfter now entry.expiresAt with
    | true => simp [hexp] at h
    | false =>
        simp [hexp] at h
        subst h
        exact hg.1 _ (mapLookup_mem hl)

theorem getEvents_sorted {c : AggregatorCache} (hg : CacheGood (some c))
    {aName city : String} {lim : Int} {now : GoTime} {r : AggregatedResults}
    (h : c.GetEvents aName city lim now = some r) : ∃ t, eventsSortedAt t r.events := by
  unfold AggregatorCache.GetEvents at h
  rcases hl : mapLookup c.eventCache (eventCacheKey aName city lim) with _ | entry
  · rw [hl] at h
    cases h
  · rw [hl] at h
    cases hexp : timeAfter now entry.expiresAt with
    | true => simp [hexp] at h
    | false =>
        simp [hexp] at h
        subst h
        exact hg.2 _ (mapLookup_mem hl)

theorem allowSeq_within (L : Int) (t0 : GoTime) :
    ∀ (ts : List GoTime) (k : Int), 0 ≤ k → k + (ts.length : Int) ≤ L →
      (∀ t ∈ ts, t - t0 ≤ 24 * nsPerHour) →
      rateLimiter.allowSeq ⟨k, t0, L⟩ ts
        = (List.replicate ts.length none, ⟨k + (ts.length : Int), t0, L⟩)
  | [], k, _, _, _ => by simp [rateLimiter.allowSeq]
  | t :: ts, k, hk0, hkL, hts => by
      have ht : t - t0 ≤ 24 * nsPerHour := hts t (List.mem_cons_self _ _)
      have hlen : ((t :: ts).length : Int) = (ts.length : Int) + 1 := by
        simp
      rw [hlen] at hkL
      have hreset : ¬ (t - t0 > 24 * nsPerHour) := not_lt.mpr ht
      have hcnt : ¬ (k ≥ L) := by
        have hnn : (0 : Int) ≤ (ts.length : Int) := Int.ofNat_nonneg _
        omega
      have hstep : rateLimiter.Allow ⟨k, t0, L⟩ t = (none, ⟨k + 1, t0, L⟩) := by
        unfold rateLimiter.Allow
        rw [if_neg hreset]
        rw [if_neg hcnt]
      have hrec := allowSeq_within L t0 ts (k + 1) (by omega) (by omega)
        (fun x hx => hts x (List.mem_cons_of_mem _ hx))
      simp only [rateLimiter.allowSeq, hstep, hrec, List.length_cons, List.replicate_succ,
        Prod.mk.injEq, rateLimiter.mk.injEq]
      push_cast
      refine ⟨trivial, by ring, trivial, trivial⟩

theorem filter_success_nil (rs : List SourceResult) (h : ∀ r ∈ rs, r.error ≠ none) :
    rs.filter (fun r => r.error == none) = [] := by
  induction rs with
  | nil => rfl
  | cons r rest ih =>
      have hr : ¬ (r.error == none) = true := by
        simpa using h r (List.mem_cons_self _ _)
      simp only [List.filter_cons, if_neg hr]
      exact ih (fun x hx => h x (List.mem_cons_of_mem _ hx))

theorem errors_length_all_fail (rs : List SourceResult) (h : ∀ r ∈ rs, r.error ≠ none) :
    (rs.filterMap (fun r => r.error.map (formatSourceError r))).length = rs.length := by
  induction rs with
  | nil => rfl
  | cons r rest ih =>
      rcases he : r.error with _ | e
      · exact absurd he (h r (List.mem_cons_self _ _))
      · simp [List.filterMap_cons, he, ih (fun x hx => h x (List.mem_cons_of_mem _ hx))]

theorem searchArtistsCompute_results (m : MegaAggregator) (q : String) (lim : Int)
    (srs : List SourceResult) (now : GoTime) (el : GoDuration) :
    (m.searchArtistsCompute q lim srs now el).1.1
      = { artists := truncateTo lim (sortArtists
            (if m.config.deduplicationEnabled then DeduplicateArtists (drainArtists srs).1
             else (drainArtists srs).1))
          events := []
          sourceStats := (drainArtists srs).2.1
          totalResults := ((truncateTo lim (sortArtists
            (if m.config.deduplicationEnabled then DeduplicateArtists (drainArtists srs).1
             else (drainArtists srs).1))).length : Int)
          searchTime := el
          errors := (drainArtists srs).2.2 } := rfl

theorem searchEventsCompute_results (m : MegaAggregator) (aName city : String) (lim : Int)
    (srs : List SourceResult) (now : GoTime) (el : GoDuration) :
    (m.searchEventsCompute aName city lim srs now el).1.1
      = { artists := []
          events := truncateTo lim (sortEvents now
            (if m.config.deduplicationEnabled then DeduplicateEvents (drainEvents srs).1
             else (drainEvents srs).1))
          sourceStats := (drainEvents srs).2.1
          totalResults := ((truncateTo lim (sortEvents now
            (if m.config.deduplicationEnabled then DeduplicateEvents (drainEvents srs).1
             else (drainEvents srs).1))).length : Int)
          searchTime := el
          errors := (drainEvents srs).2.2 } := rfl

theorem searchArtistsCompute_cache (m : MegaAggregator) (q : String) (lim : Int)
    (srs : List SourceResult) (now : GoTime) (el : GoDuration) :
    (m.searchArtistsCompute q lim srs now el).2
      = { m with cache := m.cache.map (fun c =>
            c.SetArtists q lim (m.searchArtistsCompute q lim srs now el).1.1 now) } := rfl

theorem searchEventsCompute_cache (m : MegaAggregator) (aName city : String) (lim : Int)
    (srs : List SourceResult) (now : GoTime) (el : GoDuration) :
    (m.searchEventsCompute aName city lim srs now el).2
      = { m with cache := m.cache.map (fun c =>
            c.SetEvents aName city lim (m.searchEventsCompute aName city lim srs now el).1.1 now) } :=
  rfl

theorem getArtists_after_set (c : AggregatorCache) (q : String) (lim : Int)
    (r : AggregatedResults) (t0 t1 : GoTime) (hexp : timeAfter t1 (t0 + c.ttl) = false) :
    (c.SetArtists q lim r t0).GetArtists q lim t1 = some r := by
  unfold AggregatorCache.GetArtists AggregatorCache.SetArtists
  simp [mapLookup_mapSet_self, hexp]

theorem getEvents_after_set (c : AggregatorCache) (aName city : String) (lim : Int)
    (r : AggregatedResults) (t0 t1 : GoTime) (hexp : timeAfter t1 (t0 + c.ttl) = false) :
    (c.SetEvents aName city lim r t0).GetEvents aName city lim t1 = some r := by
  unfold AggregatorCache.GetEvents AggregatorCache.SetEvents
  simp [mapLookup_mapSet_self, hexp]

theorem searchArtists_hit (m : MegaAggregator) (c : AggregatorCache) (q : String) (lim : Int)
    (srs : List SourceResult) (now : GoTime) (el : GoDuration) (r : AggregatedResults)
    (hc : m.cache = some c) (hget : c.GetArtists q (effectiveLimit lim) now = some r) :
    m.SearchArtists q lim srs now el = ((r, none), m) := by
  simp [MegaAggregator.SearchArtists, hc, hget]

theorem searchEvents_hit (m : MegaAggregator) (c : AggregatorCache) (aName : String) (lim : Int)
    (srs : List SourceResult) (now : GoTime) (el : GoDuration) (r : AggregatedResults)
    (hc : m.cache = some c) (hget : c.GetEvents aName "" (effectiveLimit lim) now = some r) :
    m.SearchEvents aName lim srs now el = ((r, none), m) := by
  simp [MegaAggregator.SearchEvents, hc, hget]

theorem searchEventsByLocation_hit (m : MegaAggregator) (c : AggregatorCache) (city : String)
    (lim : Int) (srs : List SourceResult) (now : GoTime) (el : GoDuration)
    (r : AggregatedResults)
    (hc : m.cache = some c) (hget : c.GetEvents "" city (effectiveLimit lim) now = some r) :
    m.SearchEventsByLocation city lim srs now el = ((r, none), m) := by
  simp [MegaAggregator.SearchEventsByLocation, hc, hget]

theorem drain_items_nil_all_fail {α : Type} (f : SourceResult → List α)
    (rs : List SourceResult) (h : ∀ r ∈ rs, r.error ≠ none) : (drain f rs).1 = [] := by
  rw [drain_spec, filter_success_nil rs h]
  rfl

theorem searchArtistsCompute_items_nil (m : MegaAggregator) (q : String) (lim : Int)
    (srs : List SourceResult) (now : GoTime) (el : GoDuration)
    (h1 : (drainArtists srs).1 = []) :
    (m.searchArtistsCompute q lim srs now el).1.1.artists = [] := by
  rw [searchArtistsCompute_results]
  show truncateTo lim (sortArtists
    (if m.config.deduplicationEnabled then DeduplicateArtists (drainArtists srs).1
     else (drainArtists srs).1)) = []
  rw [h1]
  rw [show (if m.config.deduplicationEnabled then DeduplicateArtists [] else []) = [] by
    cases m.config.deduplicationEnabled <;> rfl]
  rw [show sortArtists [] = [] from rfl, truncateTo_nil]

theorem searchEventsCompute_items_nil (m : MegaAggregator) (aName city : String) (lim : Int)
    (srs : List SourceResult) (now : GoTime) (el : GoDuration)
    (h1 : (drainEvents srs).1 = []) :
    (m.searchEventsCompute aName city lim srs now el).1.1.events = [] := by
  rw [searchEventsCompute_results]
  show truncateTo lim (sortEvents now
    (if m.config.deduplicationEnabled then DeduplicateEvents (drainEvents srs).1
     else (drainEvents srs).1)) = []
  rw [h1]
  rw [show (if m.config.deduplicationEnabled then DeduplicateEvents [] else []) = [] by
    cases m.config.deduplicationEnabled <;> rfl]
  rw [show sortEvents now [] = [] from rfl, truncateTo_nil]

theorem searchArtistsCompute_sorted (m : MegaAggregator) (q : String) (lim : Int)
    (srs : List SourceResult) (now : GoTime) (el : GoDuration) :
    popSorted (m.searchArtistsCompute q lim srs now el).1.1.artists := by
  rw [searchArtistsCompute_results]
  exact pairwise_truncateTo _ (popSorted_sortArtists _)

theorem searchEventsCompute_sorted (m : MegaAggregator) (aName city : String) (lim : Int)
    (srs : List SourceResult) (now : GoTime) (el : GoDuration) :
    eventsSortedAt now (m.searchEventsCompute aName city lim srs now el).1.1.events := by
  rw [searchEventsCompute_results]
  exact pairwise_truncateTo _ (eventsSortedAt_sortEvents _ _)

theorem searchArtists_sorted_good (m : MegaAggregator) (q : String) (lim : Int)
    (srs : List SourceResult) (now : GoTime) (el : GoDuration) (hg : CacheGood m.cache) :
    popSorted (m.SearchArtists q lim srs now el).1.1.artists
    ∧ CacheGood (m.SearchArtists q lim srs now el).2.cache := by
  rcases hc : m.cache with _ | c
  · have hmiss : artistCacheMiss m q lim now := by
      intro c2 hc2
      rw [hc] at hc2
      cases hc2
    rw [searchArtists_miss m q lim srs now el hmiss]
    refine ⟨searchArtistsCompute_sorted m q _ srs now el, ?_⟩
    rw [searchArtistsCompute_cache, hc]
    exact trivial
  · rcases hget : c.GetArtists q (effectiveLimit lim) now with _ | r
    · have hmiss : artistCacheMiss m q lim now := by
        intro c2 hc2
        rw [hc] at hc2
        injection hc2 with h2
        subst h2
        exact hget
      rw [searchArtists_miss m q lim srs now el hmiss]
      refine ⟨searchArtistsCompute_sorted m q _ srs now el, ?_⟩
      rw [searchArtistsCompute_cache, hc]
      exact cacheGood_setArtists (hc ▸ hg) _ _ _ _ (searchArtistsCompute_sorted m q _ srs now el)
    · rw [searchArtists_hit m c q lim srs now el r hc hget]
      exact ⟨getArtists_sorted (hc ▸ hg) hget, hg⟩

theorem searchEvents_sorted_good (m : MegaAggregator) (aName : String) (lim : Int)
    (srs : List SourceResult) (now : GoTime) (el : GoDuration) (hg : CacheGood m.cache) :
    (∃ t, eventsSortedAt t (m.SearchEvents aName lim srs now el).1.1.events)
    ∧ CacheGood (m.SearchEvents aName lim srs now el).2.cache
    ∧ (eventCacheMiss m aName "" lim now →
        eventsSortedAt now (m.SearchEvents aName lim srs now el).1.1.events) := by
  rcases hc : m.cache with _ | c
  · have hmiss : eventCacheMiss m aName "" lim now := by
      intro c2 hc2
      rw [hc] at hc2
      cases hc2
    rw [searchEvents_miss m aName lim srs now el hmiss]
    refine ⟨⟨now, searchEventsCompute_sorted m aName "" _ srs now el⟩, ?_, ?_⟩
    · rw [searchEventsCompute_cache, hc]
      exact trivial
    · intro hm2
      exact searchEventsCompute_sorted m aName "" _ srs now el
  · rcases hget : c.GetEvents aName "" (effectiveLimit lim) now with _ | r
    · have hmiss : eventCacheMiss m aName "" lim now := by
        intro c2 hc2
        rw [hc] at hc2
        injection hc2 with h2
        subst h2
        exact hget
      rw [searchEvents_miss m aName lim srs now el hmiss]
      refine ⟨⟨now, searchEventsCompute_sorted m aName "" _ srs now el⟩, ?_, ?_⟩
      · rw [searchEventsCompute_cache, hc]
        exact cacheGood_setEvents (hc ▸ hg) _ _ _ _ _
          ⟨now, searchEventsCompute_sorted m aName "" _ srs now el⟩
      · intro hm2
        exact searchEventsCompute_sorted m aName "" _ srs now el
    · rw [searchEvents_hit m c aName lim srs now el r hc hget]
      refine ⟨getEvents_sorted (hc ▸ hg) hget, hg, ?_⟩
      intro hm2
      have := hm2 c hc
      rw [this] at hget
      cases hget

theorem searchEventsByLocation_sorted_good (m : MegaAggregator) (city : String) (lim : Int)
    (srs : List SourceResult) (now : GoTime) (el : GoDuration) (hg : CacheGood m.cache) :
    (∃ t, eventsSortedAt t (m.SearchEventsByLocation city lim srs now el).1.1.events)
    ∧ CacheGood (m.SearchEventsByLocation city lim srs now el).2.cache
    ∧ (eventCacheMiss m "" city lim now →
        eventsSortedAt now (m.SearchEventsByLocation city lim srs now el).1.1.events) := by
  rcases hc : m.cache with _ | c
  · have hmiss : eventCacheMiss m "" city lim now := by
      intro c2 hc2
      rw [hc] at hc2
      cases hc2
    rw [searchEventsByLocation_miss m city lim srs now el hmiss]
    refine ⟨⟨now, searchEventsCompute_sorted m "" city _ srs now el⟩, ?_, ?_⟩
    · rw [searchEventsCompute_cache, hc]
      exact trivial
    · intro hm2
      exact searchEventsCompute_sorted m "" city _ srs now el
  · rcases hget : c.GetEvents "" city (effectiveLimit lim) now with _ | r
    · have hmiss : eventCacheMiss m "" city lim now := by
        intro c2 hc2
        rw [hc] at hc2
        injection hc2 with h2
        subst h2
        exact hget
      rw [searchEventsByLocation_miss m city lim srs now el hmiss]
      refine ⟨⟨now, searchEventsCompute_sorted m "" city _ srs now el⟩, ?_, ?_⟩
      · rw [searchEventsCompute_cache, hc]
        exact cacheGood_setEvents (hc ▸ hg) _ _ _ _ _
          ⟨now, searchEventsCompute_sorted m "" city _ srs now el⟩
      · intro hm2
        exact searchEventsCompute_sorted m "" city _ srs now el
    · rw [searchEventsByLocation_hit m c city lim srs now el r hc hget]
      refine ⟨getEvents_sorted (hc ▸ hg) hget, hg, ?_⟩
      intro hm2
      have := hm2 c hc
      rw [this] at hget
      cases hget

theorem cacheCounts_setArtists {c : AggregatorCache} (hg : CacheCounts (some c))
    (q : String) (lim : Int) (r : AggregatedResults) (now : GoTime)
    (hr : r.totalResults = (r.artists.length : Int)) :
    CacheCounts (some (c.SetArtists q lim r now)) := by
  obtain ⟨hA, hE⟩ := hg
  refine ⟨?_, ?_⟩
  · intro p hp
    rcases mem_mapSet hp with h | h
    · subst h
      exact hr
    · exact hA p h
  · intro p hp
    exact hE p hp

theorem cacheCounts_setEvents {c : AggregatorCache} (hg : CacheCounts (some c))
    (aName city : String) (lim : Int) (r : AggregatedResults) (now : GoTime)
    (hr : r.totalResults = (r.events.length : Int)) :
    CacheCounts (some (c.SetEvents aName city lim r now)) := by
  obtain ⟨hA, hE⟩ := hg
  refine ⟨?_, ?_⟩
  · intro p hp
    exact hA p hp
  · intro p hp
    rcases mem_mapSet hp with h | h
    · subst h
      exact hr
    · exact hE p h

theorem getArtists_counts {c : AggregatorCache} (hg : CacheCounts (some c))
    {q : String} {lim : Int} {now : GoTime} {r : AggregatedResults}
    (h : c.GetArtists q lim now = some r) : r.totalResults = (r.artists.length : Int) := by
  unfold AggregatorCache.GetArtists at h
  rcases hl : mapLookup c.artistCache (artistCacheKey q lim) with _ | entry
  · rw [hl] at h
    cases h
  · rw [hl] at h
    cases hexp : timeAfter now entry.expiresAt with
    | true => simp [hexp] at h
    | false =>
        simp [hexp] at h
        subst h
        exact hg.1 _ (mapLookup_mem hl)

theorem getEvents_counts {c : AggregatorCache} (hg : CacheCounts (some c))
    {aName city : String} {lim : Int} {now : GoTime} {r : AggregatedResults}
    (h : c.GetEvents aName city lim now = some r) :
    r.totalResults = (r.events.length : Int) := by
  unfold AggregatorCache.GetEvents at h
  rcases hl : mapLookup c.eventCache (eventCacheKey aName city lim) with _ | entry
  · rw [hl] at h
    cases h
  · rw [hl] at h
    cases hexp : timeAfter now entry.expiresAt with
    | true => simp [hexp] at h
    | false =>
        simp [hexp] at h
        subst h
        exact hg.2 _ (mapLookup_mem hl)

theorem searchArtists_counts (m : MegaAggregator) (q : String) (lim : Int)
    (srs : List SourceResult) (now : GoTime) (el : GoDuration) (hg : CacheCounts m.cache) :
    (m.SearchArtists q lim srs now el).1.1.totalResults
        = ((m.SearchArtists q lim srs now el).1.1.artists.length : Int)
    ∧ CacheCounts (m.SearchArtists q lim srs now el).2.cache := by
  rcases hc : m.cache with _ | c
  · have hmiss : artistCacheMiss m q lim now := by
      intro c2 hc2
      rw [hc] at hc2
      cases hc2
    rw [searchArtists_miss m q lim srs now el hmiss]
    refine ⟨by rw [searchArtistsCompute_results], ?_⟩
    rw [searchArtistsCompute_cache, hc]
    exact trivial
  · rcases hget : c.GetArtists q (effectiveLimit lim) now with _ | r
    · have hmiss : artistCacheMiss m q lim now := by
        intro c2 hc2
        rw [hc] at hc2
        injection hc2 with h2
        subst h2
        exact hget
      rw [searchArtists_miss m q lim srs now el hmiss]
      refine ⟨by rw [searchArtistsCompute_results], ?_⟩
      rw [searchArtistsCompute_cache, hc]
      exact cacheCounts_setArtists (hc ▸ hg) _ _ _ _
        (by rw [searchArtistsCompute_results])
    · rw [searchArtists_hit m c q lim srs now el r hc hget]
      exact ⟨getArtists_counts (hc ▸ hg) hget, hg⟩

theorem searchEvents_counts (m : MegaAggregator) (aName : String) (lim : Int)
    (srs : List SourceResult) (now : GoTime) (el : GoDuration) (hg : CacheCounts m.cache) :
    (m.SearchEvents aName lim srs now el).1.1.totalResults
        = ((m.SearchEvents aName lim srs now el).1.1.events.length : Int)
    ∧ CacheCounts (m.SearchEvents aName lim srs now el).2.cache := by
  rcases hc : m.cache with _ | c
  · have hmiss : eventCacheMiss m aName "" lim now := by
      intro c2 hc2
      rw [hc] at hc2
      cases hc2
    rw [searchEvents_miss m aName lim srs now el hmiss]
    refine ⟨by rw [searchEventsCompute_results], ?_⟩
    rw [searchEventsCompute_cache, hc]
    exact trivial
  · rcases hget : c.GetEvents aName "" (effectiveLimit lim) now with _ | r
    · have hmiss : eventCacheMiss m aName "" lim now := by
        intro c2 hc2
        rw [hc] at hc2
        injection hc2 with h2
        subst h2
        exact hget
      rw [searchEvents_miss m aName lim srs now el hmiss]
      refine ⟨by rw [searchEventsCompute_results], ?_⟩
      rw [searchEventsCompute_cache, hc]
      exact cacheCounts_setEvents (hc ▸ hg) _ _ _ _ _
        (by rw [searchEventsCompute_results])
    · rw [searchEvents_hit m c aName lim srs now el r hc hget]
      exact ⟨getEvents_counts (hc ▸ hg) hget, hg⟩

theorem searchEventsByLocation_counts (m : MegaAggregator) (city : String) (lim : Int)
    (srs : List SourceResult) (now : GoTime) (el : GoDuration) (hg : CacheCounts m.cache) :
    (m.SearchEventsByLocation city lim srs now el).1.1.totalResults
        = ((m.SearchEventsByLocation city lim srs now el).1.1.events.length : Int)
    ∧ CacheCounts (m.SearchEventsByLocation city lim srs now el).2.cache := by
  rcases hc : m.cache with _ | c
  · have hmiss : eventCacheMiss m "" city lim now := by
      intro c2 hc2
      rw [hc] at hc2
      cases hc2
    rw [searchEventsByLocation_miss m city lim srs now el hmiss]
    refine ⟨by rw [searchEventsCompute_results], ?_⟩
    rw [searchEventsCompute_cache, hc]
    exact trivial
  · rcases hget : c.GetEvents "" city (effectiveLimit lim) now with _ | r
    · have hmiss : eventCacheMiss m "" city lim now := by
        intro c2 hc2
        rw [hc] at hc2
        injection hc2 with h2
        subst h2
        exact hget
      rw [searchEventsByLocation_miss m city lim srs now el hmiss]
      refine ⟨by rw [searchEventsCompute_results], ?_⟩
      rw [searchEventsCompute_cache, hc]
      exact cacheCounts_setEvents (hc ▸ hg) _ _ _ _ _
        (by rw [searchEventsCompute_results])
    · rw [searchEventsByLocation_hit m c city lim srs now el r hc hget]
      exact ⟨getEvents_counts (hc ▸ hg) hget, hg⟩

/-! ## Claim theorems -/

/-- C9: the MusicBrainz minimum-interval throttle never rejects: for every
prior state and every call instant, `Allow` returns `nil`; it updates the
last-request timestamp to the post-sleep instant
`max now (lastRequest + interval)` — i.e. it returns success only once the
mandated interval since the last request has elapsed — and there is no
state or input for which it returns a failure. -/
theorem musicBrainzThrottle_never_rejects (r : musicBrainzRateLimiter) (now : GoTime) :
    (r.Allow now).1 = none
    ∧ (r.Allow now).2.lastRequest = max now (r.lastRequest + r.interval)
    ∧ (r.Allow now).2.interval = r.interval := by
  obtain ⟨last, iv⟩ := r
  refine ⟨rfl, ?_, rfl⟩
  show now + (if now - last < iv then iv - (now - last) else 0) = max now (last + iv)
  rcases le_or_lt iv (now - last) with h | h
  · have hm : max now (last + iv) = now := max_eq_left (by linarith)
    rw [if_neg (not_lt.mpr h), hm]
    linarith
  · have hm : max now (last + iv) = last + iv := max_eq_right (by linarith)
    rw [if_pos h, hm]
    linarith

/-- C10: the event-cache key function is not injective: the distinct
`(artistName, city)` pairs `("a_b", "")` and `("a", "b_")` produce the same
key at limit 10; an artist-based key (`SearchEvents` uses
`(artistName, "")`) can also equal a location-based key
(`SearchEventsByLocation` uses `("", city)`), e.g. artist `"_x"` vs city
`"x_"`; consequently a `SetEvents` under one pair is answered verbatim by a
`GetEvents` under the other. -/
theorem eventCacheKey_not_injective :
    eventCacheKey "a_b" "" 10 = eventCacheKey "a" "b_" 10
    ∧ (("a_b", "") : String × String) ≠ ("a", "b_")
    ∧ eventCacheKey "_x" "" 7 = eventCacheKey "" "x_" 7
    ∧ ((NewAggregatorCache 100).SetEvents "a_b" "" 10 sampleResults 0).GetEvents "a" "b_" 10 0
        = some sampleResults
    ∧ ((NewAggregatorCache 100).SetEvents "" "x_" 7 sampleResults 0).GetEvents "_x" "" 7 0
        = some sampleResults := by
  refine ⟨by decide, by decide, by decide, by decide, by decide⟩

/-- C8: the Bandsintown fixed-window daily limiter: starting from a fresh
window opened at `t0` with positive daily limit `L`, a sequence of exactly
`L` in-window calls all succeed and leave the state at
`requests = L, windowStart = t0`; the next in-window call returns the
RateLimitExceeded failure and leaves count and window start unchanged; and
from any state whose window start lies more than 24 hours in the past
(with a positive configured limit), the next call resets the window,
succeeds, and leaves the counter at exactly 1. -/
theorem rateLimiter_fixed_window (L : Int) (t0 tNext tLate : GoTime) (ts : List GoTime)
    (r2 : rateLimiter)
    (_hL : 0 < L) (hlen : (ts.length : Int) = L)
    (hts : ∀ t ∈ ts, t - t0 ≤ 24 * nsPerHour)
    (hNext : tNext - t0 ≤ 24 * nsPerHour)
    (hpos : 0 < r2.dailyLimit) (hLate : tLate - r2.windowStart > 24 * nsPerHour) :
    (newRateLimiter L t0).allowSeq ts = (List.replicate ts.length none, ⟨L, t0, L⟩)
    ∧ rateLimiter.Allow ⟨L, t0, L⟩ tNext = (some ErrRateLimitExceeded, ⟨L, t0, L⟩)
    ∧ r2.Allow tLate = (none, ⟨1, tLate, r2.dailyLimit⟩) := by
  refine ⟨?_, ?_, ?_⟩
  · have h := allowSeq_within L t0 ts 0 le_rfl (by omega) hts
    rw [show newRateLimiter L t0 = (⟨0, t0, L⟩ : rateLimiter) from rfl, h]
    rw [show (0 : Int) + (ts.length : Int) = L by omega]
  · unfold rateLimiter.Allow
    rw [if_neg (not_lt.mpr hNext)]
    rw [if_pos (le_refl L)]
  · obtain ⟨req, ws, dl⟩ := r2
    unfold rateLimiter.Allow
    simp only at hLate hpos
    rw [if_pos hLate]
    rw [if_neg (by simp only; omega)]
    simp

/-- C8 witness: daily limit 2, fresh window at 0; calls at 10 and 20
succeed, the call at 30 is rejected with state unchanged, and a limiter
whose window started more than 24h ago resets to a count of 1. -/
theorem rateLimiter_fixed_window_witness :
    rateLimiter.Allow ⟨2, 0, 2⟩ 30 = (some ErrRateLimitExceeded, ⟨2, 0, 2⟩) :=
  (rateLimiter_fixed_window 2 0 30 (24 * nsPerHour + 1) [10, 20] ⟨2, 0, 2⟩
    (by decide) (by decide) (by decide) (by decide) (by decide) (by decide)).2.1

/-- C2 counterexample: with deduplication enabled, when the fan-in channel
is drained in the order [source B, source A], the surviving artist is
`"radiohead."` with popularity 70, not `"Radiohead"` with popularity 90 —
so the tie-break winner is NOT independent of the consumption order as the
claim states. -/
theorem dedup_tiebreak_not_order_independent :
    ((aggDedupNoCache.SearchArtists "Radiohead" 10 [resultSourceB, resultSourceA] 0 0).1.1.artists.map
        (fun a => (a.name, a.popularity)) = [("radiohead.", 70)])
    ∧ ¬ ((aggDedupNoCache.SearchArtists "Radiohead" 10 [resultSourceB, resultSourceA] 0 0).1.1.artists.map
        (fun a => (a.name, a.popularity)) = [("Radiohead", 90)]) := by
  refine ⟨by decide, by decide⟩

/-- C2 amended: with deduplication enabled on the two-record Radiohead
input, the merged output always contains exactly one artist, but the
survivor is decided by the keep-first rule over the channel drain order:
drained as [A, B] it is `"Radiohead"`/90, drained as [B, A] it is
`"radiohead."`/70. -/
theorem dedup_tiebreak_keep_first :
    ((aggDedupNoCache.SearchArtists "Radiohead" 10 [resultSourceA, resultSourceB] 0 0).1.1.artists.map
        (fun a => (a.name, a.popularity)) = [("Radiohead", 90)])
    ∧ ((aggDedupNoCache.SearchArtists "Radiohead" 10 [resultSourceB, resultSourceA] 0 0).1.1.artists.map
        (fun a => (a.name, a.popularity)) = [("radiohead.", 70)]) := by
  refine ⟨by decide, by decide⟩

/-- C3: `DeduplicateArtists` and `DeduplicateEvents` return a subsequence
of the input (hence output length ≤ input length) that keeps exactly the
first occurrence of each normalized key, preserving relative order; for
any key value, the output holds exactly one record with that key when the
input holds at least one, and each surviving record is the first input
record bearing its key — so two inputs collapse exactly when their
normalized keys (artist: lowercased name with spaces, periods, hyphens
stripped; event: artist key, venue key and YYYYMMDD date joined by
underscores) agree. -/
theorem dedup_keeps_first_occurrence (arts : List Artist) (evs : List Event) (k : String) :
    List.Sublist (DeduplicateArtists arts) arts
    ∧ (DeduplicateArtists arts).length ≤ arts.length
    ∧ (DeduplicateArtists arts).countP (fun a => artistDedupKey a == k)
        = (if arts.any (fun a => artistDedupKey a == k) then 1 else 0)
    ∧ (∀ a ∈ DeduplicateArtists arts,
        arts.find? (fun x => artistDedupKey x == artistDedupKey a) = some a)
    ∧ List.Sublist (DeduplicateEvents evs) evs
    ∧ (DeduplicateEvents evs).length ≤ evs.length
    ∧ (DeduplicateEvents evs).countP (fun e => normalizeEventKey e == k)
        = (if evs.any (fun e => normalizeEventKey e == k) then 1 else 0)
    ∧ (∀ e ∈ DeduplicateEvents evs,
        evs.find? (fun x => normalizeEventKey x == normalizeEventKey e) = some e) := by
  refine ⟨dedupByAux_sublist artistDedupKey arts [],
    (dedupByAux_sublist artistDedupKey arts []).length_le, ?_, ?_,
    dedupByAux_sublist normalizeEventKey evs [],
    (dedupByAux_sublist normalizeEventKey evs []).length_le, ?_, ?_⟩
  · have h := dedupByAux_countP artistDedupKey k arts []
    simpa using h
  · intro a ha
    exact (dedupByAux_first artistDedupKey arts [] a ha).2
  · have h := dedupByAux_countP normalizeEventKey k evs []
    simpa using h
  · intro e he
    exact (dedupByAux_first normalizeEventKey evs [] e he).2

/-- C5: draining the fan-in channel, each errored `SourceResult`
contributes exactly the string `"<source>: <cause>"` to the errors list
(and nothing to the merged items or to `sourceStats`), and each error-free
one contributes its raw item count under its name in `sourceStats` and
appends its items to the merged list; with distinct source names,
`sourceStats` therefore has an entry exactly for the sources that
returned without error, holding their pre-dedup, pre-truncation counts. -/
theorem drain_loop_spec (results : List SourceResult) (n : String)
    (hnd : (results.map (fun r => r.sourceName)).Nodup) :
    (drainArtists results).2.2
        = results.filterMap (fun r => r.error.map (formatSourceError r))
    ∧ (drainArtists results).1
        = ((results.filter (fun r => r.error == none)).map (fun r => r.artists)).flatten
    ∧ mapLookup (drainArtists results).2.1 n
        = (results.find? (fun r => r.sourceName == n && r.error.isNone)).map
            (fun r => ((r.artists).length : Int))
    ∧ (drainEvents results).2.2
        = results.filterMap (fun r => r.error.map (formatSourceError r))
    ∧ (drainEvents results).1
        = ((results.filter (fun r => r.error == none)).map (fun r => r.events)).flatten
    ∧ mapLookup (drainEvents results).2.1 n
        = (results.find? (fun r => r.sourceName == n && r.error.isNone)).map
            (fun r => ((r.events).length : Int)) := by
  have hA := drain_spec (fun r => r.artists) results
  have hE := drain_spec (fun r => r.events) results
  refine ⟨?_, ?_, ?_, ?_, ?_, ?_⟩
  · rw [show (drainArtists results).2.2 = (drain (fun r => r.artists) results).2.2 from rfl, hA]
  · rw [show (drainArtists results).1 = (drain (fun r => r.artists) results).1 from rfl, hA]
  · rw [show (drainArtists results).2.1 = (drain (fun r => r.artists) results).2.1 from rfl, hA]
    exact statsAcc_lookup (fun r => r.artists) n results [] hnd rfl
  · rw [show (drainEvents results).2.2 = (drain (fun r => r.events) results).2.2 from rfl, hE]
  · rw [show (drainEvents results).1 = (drain (fun r => r.events) results).1 from rfl, hE]
  · rw [show (drainEvents results).2.1 = (drain (fun r => r.events) results).2.1 from rfl, hE]
    exact statsAcc_lookup (fun r => r.events) n results [] hnd rfl

/-- C5 witness: three sources with distinct names, the middle one failing:
the failing source contributes only its formatted error, the succeeding
ones their stats entries and items. -/
theorem drain_loop_spec_witness :
    mapLookup (drainArtists [resultSourceA,
        { sourceName := "bad", artists := [], events := [], error := some "boom" },
        resultSourceB]).2.1 "sourceA" = some 1 :=
  (drain_loop_spec [resultSourceA,
      { sourceName := "bad", artists := [], events := [], error := some "boom" },
      resultSourceB] "sourceA" (by decide)).2.2.1

/-- C1: source-level failures never produce a top-level error: every call
of the three search operations returns a `nil` error; on the compute path
(cache disabled or a miss), zero registered sources yield an empty item
list and an empty errors list, and when every source result carries an
error the item list is empty while the errors list has exactly one entry
per failing source. -/
theorem aggregate_tolerates_source_failures (m : MegaAggregator) (q aName city : String)
    (lim : Int) (srsA srsE srsL : List SourceResult) (now : GoTime) (el : GoDuration) :
    (m.SearchArtists q lim srsA now el).1.2 = none
    ∧ (m.SearchEvents aName lim srsE now el).1.2 = none
    ∧ (m.SearchEventsByLocation city lim srsL now el).1.2 = none
    ∧ (artistCacheMiss m q lim now →
        (m.SearchArtists q lim [] now el).1.1.artists = []
        ∧ (m.SearchArtists q lim [] now el).1.1.errors = [])
    ∧ (artistCacheMiss m q lim now → (∀ r ∈ srsA, r.error ≠ none) →
        (m.SearchArtists q lim srsA now el).1.1.artists = []
        ∧ (m.SearchArtists q lim srsA now el).1.1.errors.length = srsA.length)
    ∧ (eventCacheMiss m aName "" lim now →
        (m.SearchEvents aName lim [] now el).1.1.events = []
        ∧ (m.SearchEvents aName lim [] now el).1.1.errors = [])
    ∧ (eventCacheMiss m aName "" lim now → (∀ r ∈ srsE, r.error ≠ none) →
        (m.SearchEvents aName lim srsE now el).1.1.events = []
        ∧ (m.SearchEvents aName lim srsE now el).1.1.errors.length = srsE.length)
    ∧ (eventCacheMiss m "" city lim now →
        (m.SearchEventsByLocation city lim [] now el).1.1.events = []
        ∧ (m.SearchEventsByLocation city lim [] now el).1.1.errors = [])
    ∧ (eventCacheMiss m "" city lim now → (∀ r ∈ srsL, r.error ≠ none) →
        (m.SearchEventsByLocation city lim srsL now el).1.1.events = []
        ∧ (m.SearchEventsByLocation city lim srsL now el).1.1.errors.length = srsL.length) := by
  refine ⟨searchArtists_error_none m q lim srsA now el,
    searchEvents_error_none m aName lim srsE now el,
    searchEventsByLocation_error_none m city lim srsL now el, ?_, ?_, ?_, ?_, ?_, ?_⟩
  · intro hmiss
    rw [searchArtists_miss m q lim [] now el hmiss]
    exact ⟨searchArtistsCompute_items_nil m q _ [] now el rfl, rfl⟩
  · intro hmiss hfail
    rw [searchArtists_miss m q lim srsA now el hmiss]
    refine ⟨searchArtistsCompute_items_nil m q _ srsA now el
      (drain_items_nil_all_fail _ srsA hfail), ?_⟩
    show ((drainArtists srsA).2.2).length = srsA.length
    rw [show (drainArtists srsA).2.2 = (drain (fun r => r.artists) srsA).2.2 from rfl,
      drain_spec]
    exact errors_length_all_fail srsA hfail
  · intro hmiss
    rw [searchEvents_miss m aName lim [] now el hmiss]
    exact ⟨searchEventsCompute_items_nil m aName "" _ [] now el rfl, rfl⟩
  · intro hmiss hfail
    rw [searchEvents_miss m aName lim srsE now el hmiss]
    refine ⟨searchEventsCompute_items_nil m aName "" _ srsE now el
      (drain_items_nil_all_fail _ srsE hfail), ?_⟩
    show ((drainEvents srsE).2.2).length = srsE.length
    rw [show (drainEvents srsE).2.2 = (drain (fun r => r.events) srsE).2.2 from rfl,
      drain_spec]
    exact errors_length_all_fail srsE hfail
  · intro hmiss
    rw [searchEventsByLocation_miss m city lim [] now el hmiss]
    exact ⟨searchEventsCompute_items_nil m "" city _ [] now el rfl, rfl⟩
  · intro hmiss hfail
    rw [searchEventsByLocation_miss m city lim srsL now el hmiss]
    refine ⟨searchEventsCompute_items_nil m "" city _ srsL now el
      (drain_items_nil_all_fail _ srsL hfail), ?_⟩
    show ((drainEvents srsL).2.2).length = srsL.length
    rw [show (drainEvents srsL).2.2 = (drain (fun r => r.events) srsL).2.2 from rfl,
      drain_spec]
    exact errors_length_all_fail srsL hfail

/-- C6: in every result of the three search operations (the cache being
in the count-consistent state the aggregator itself maintains),
`TotalResults` equals the length of the item list the result carries
(artists for artist search, events for event search), and that state is
preserved; on the compute path the carried list's length never exceeds
the effective limit (for a cache-hit reply the bound held, with the same
limit, when the entry was stored, the key embedding the limit); and a
requested limit ≤ 0 makes every call behave exactly as limit 50 — the
whole call, returned value and cache state alike (so truncation and the
cache key use the defaulted limit). -/
theorem totalResults_and_limit_default (m : MegaAggregator) (q aName city : String)
    (lim : Int) (srsA srsE srsL : List SourceResult) (now : GoTime) (el : GoDuration)
    (hcnt : CacheCounts m.cache) :
    ((m.SearchArtists q lim srsA now el).1.1.totalResults
        = ((m.SearchArtists q lim srsA now el).1.1.artists.length : Int))
    ∧ CacheCounts (m.SearchArtists q lim srsA now el).2.cache
    ∧ ((m.SearchEvents aName lim srsE now el).1.1.totalResults
        = ((m.SearchEvents aName lim srsE now el).1.1.events.length : Int))
    ∧ CacheCounts (m.SearchEvents aName lim srsE now el).2.cache
    ∧ ((m.SearchEventsByLocation city lim srsL now el).1.1.totalResults
        = ((m.SearchEventsByLocation city lim srsL now el).1.1.events.length : Int))
    ∧ CacheCounts (m.SearchEventsByLocation city lim srsL now el).2.cache
    ∧ (artistCacheMiss m q lim now →
        ((m.SearchArtists q lim srsA now el).1.1.artists.length : Int) ≤ effectiveLimit lim)
    ∧ (eventCacheMiss m aName "" lim now →
        ((m.SearchEvents aName lim srsE now el).1.1.events.length : Int) ≤ effectiveLimit lim)
    ∧ (eventCacheMiss m "" city lim now →
        ((m.SearchEventsByLocation city lim srsL now el).1.1.events.length : Int)
            ≤ effectiveLimit lim)
    ∧ (lim ≤ 0 →
        m.SearchArtists q lim srsA now el = m.SearchArtists q 50 srsA now el
        ∧ m.SearchEvents aName lim srsE now el = m.SearchEvents aName 50 srsE now el
        ∧ m.SearchEventsByLocation city lim srsL now el
            = m.SearchEventsByLocation city 50 srsL now el) := by
  obtain ⟨hA1, hA2⟩ := searchArtists_counts m q lim srsA now el hcnt
  obtain ⟨hE1, hE2⟩ := searchEvents_counts m aName lim srsE now el hcnt
  obtain ⟨hL1, hL2⟩ := searchEventsByLocation_counts m city lim srsL now el hcnt
  refine ⟨hA1, hA2, hE1, hE2, hL1, hL2, ?_, ?_, ?_, ?_⟩
  · intro hmiss
    rw [searchArtists_miss m q lim srsA now el hmiss, searchArtistsCompute_results]
    exact truncateTo_length_le _ (effectiveLimit_pos lim) _
  · intro hmiss
    rw [searchEvents_miss m aName lim srsE now el hmiss, searchEventsCompute_results]
    exact truncateTo_length_le _ (effectiveLimit_pos lim) _
  · intro hmiss
    rw [searchEventsByLocation_miss m city lim srsL now el hmiss, searchEventsCompute_results]
    exact truncateTo_length_le _ (effectiveLimit_pos lim) _
  · intro hlim
    have h50 : effectiveLimit lim = effectiveLimit 50 := by
      unfold effectiveLimit
      rw [if_pos hlim, if_neg (by norm_num)]
    refine ⟨?_, ?_, ?_⟩
    · simp only [MegaAggregator.SearchArtists]
      rw [h50]
    · simp only [MegaAggregator.SearchEvents]
      rw [h50]
    · simp only [MegaAggregator.SearchEventsByLocation]
      rw [h50]

/-- C6 witness: with caching enabled on a fresh (empty, trivially
count-consistent) cache and one answering source, a limit-0 request
behaves as limit 50 and the returned `totalResults` equals the length of
the returned artist list. -/
theorem totalResults_and_limit_default_witness :
    (aggWithCache.SearchArtists "q" 0 [resultSourceA] 0 0).1.1.totalResults
        = ((aggWithCache.SearchArtists "q" 0 [resultSourceA] 0 0).1.1.artists.length : Int) :=
  (totalResults_and_limit_default aggWithCache "q" "x" "Berlin" 0
    [resultSourceA] [] [] 0 0 ⟨by simp [NewAggregatorCache], by simp [NewAggregatorCache]⟩).1

/-- C7: result-cache semantics: `GetArtists` returns "no entry" exactly
when the key is absent or the current time is after the entry's
`expiresAt` (lazy expiry — the decayed entry is merely skipped, never
evicted); `SetArtists` unconditionally overwrites the entry for its key
with expiry `now + TTL`, leaving other keys untouched; consequently, with
caching enabled, after a first `SearchArtists` call that misses, a second
identical call within the TTL returns the identical `AggregatedResults`
content, answered from the cache (it leaves the state unchanged), even if
the sources would now answer differently. -/
theorem cache_semantics_and_idempotence (c : AggregatorCache) (q : String) (lim : Int)
    (now t0 t1 : GoTime) (r : AggregatedResults) (e : CacheEntry)
    (m : MegaAggregator) (cc : AggregatorCache)
    (srs srs2 : List SourceResult) (el el2 : GoDuration) :
    (mapLookup c.artistCache (artistCacheKey q lim) = none → c.GetArtists q lim now = none)
    ∧ (mapLookup c.artistCache (artistCacheKey q lim) = some e →
        timeAfter now e.expiresAt = true → c.GetArtists q lim now = none)
    ∧ (mapLookup c.artistCache (artistCacheKey q lim) = some e →
        timeAfter now e.expiresAt = false → c.GetArtists q lim now = some e.results)
    ∧ mapLookup (c.SetArtists q lim r now).artistCache (artistCacheKey q lim)
        = some ⟨r, now + c.ttl⟩
    ∧ (∀ k2, k2 ≠ artistCacheKey q lim →
        mapLookup (c.SetArtists q lim r now).artistCache k2 = mapLookup c.artistCache k2)
    ∧ (m.cache = some cc → cc.GetArtists q (effectiveLimit lim) t0 = none →
        timeAfter t1 (t0 + cc.ttl) = false →
        ((m.SearchArtists q lim srs t0 el).2.SearchArtists q lim srs2 t1 el2).1.1
            = (m.SearchArtists q lim srs t0 el).1.1
        ∧ ((m.SearchArtists q lim srs t0 el).2.SearchArtists q lim srs2 t1 el2).2
            = (m.SearchArtists q lim srs t0 el).2) := by
  refine ⟨?_, ?_, ?_, ?_, ?_, ?_⟩
  · intro h
    simp [AggregatorCache.GetArtists, h]
  · intro h hexp
    simp [AggregatorCache.GetArtists, h, hexp]
  · intro h hexp
    simp [AggregatorCache.GetArtists, h, hexp]
  · show mapLookup (mapSet c.artistCache (artistCacheKey q lim) ⟨r, now + c.ttl⟩)
        (artistCacheKey q lim) = some ⟨r, now + c.ttl⟩
    exact mapLookup_mapSet_self _ _ _
  · intro k2 hk2
    show mapLookup (mapSet c.artistCache (artistCacheKey q lim) ⟨r, now + c.ttl⟩) k2
        = mapLookup c.artistCache k2
    exact mapLookup_mapSet_ne _ _ _ _ hk2
  · intro hc hget hexp
    have hmiss : artistCacheMiss m q lim t0 := by
      intro c2 hc2
      rw [hc] at hc2
      injection hc2 with h2
      subst h2
      exact hget
    have hfirst := searchArtists_miss m q lim srs t0 el hmiss
    rw [hfirst]
    have hcache := searchArtistsCompute_cache m q (effectiveLimit lim) srs t0 el
    rw [hc] at hcache
    have hc2 : (m.searchArtistsCompute q (effectiveLimit lim) srs t0 el).2.cache
        = some (cc.SetArtists q (effectiveLimit lim)
            (m.searchArtistsCompute q (effectiveLimit lim) srs t0 el).1.1 t0) := by
      rw [hcache]
      rfl
    have hhit : (cc.SetArtists q (effectiveLimit lim)
          (m.searchArtistsCompute q (effectiveLimit lim) srs t0 el).1.1 t0).GetArtists
          q (effectiveLimit lim) t1
        = some (m.searchArtistsCompute q (effectiveLimit lim) srs t0 el).1.1 :=
      getArtists_after_set cc q (effectiveLimit lim) _ t0 t1 hexp
    have hsecond := searchArtists_hit
      (m.searchArtistsCompute q (effectiveLimit lim) srs t0 el).2
      (cc.SetArtists q (effectiveLimit lim)
        (m.searchArtistsCompute q (effectiveLimit lim) srs t0 el).1.1 t0)
      q lim srs2 t1 el2
      (m.searchArtistsCompute q (effectiveLimit lim) srs t0 el).1.1 hc2 hhit
    rw [hsecond]
    exact ⟨rfl, rfl⟩

/-- C4 counterexample: a cache-hit reply is sorted with respect to the
clock of the call that computed it, not the current call's clock. First
call at time 0 stores events at instants 10 and 1000000 (both upcoming,
ascending). A second identical call at time 100 (within the TTL) is
answered from the cache with the same order, in which the first event's
start (10) is at-or-before now (100) while the later event (1000000) is
after now — an at-or-before-now event precedes an after-now event,
refuting the claim for this returned result. -/
theorem event_sort_stale_after_cache_hit :
    ((aggWithCache.SearchEvents "x" 10 [resultEventsSource] 0 0).2.SearchEvents
        "x" 10 [] 100 0).1.1.events.map (fun e => e.dateTime) = [10, 1000000]
    ∧ ((aggWithCache.SearchEvents "x" 10 [resultEventsSource] 0 0).2.SearchEvents
        "x" 10 [] 100 0).1.1.events.map (fun e => timeAfter e.dateTime 100)
        = [false, true] := by
  refine ⟨by decide, by decide⟩

/-- C4 amended: given a well-formed cache (the state the aggregator itself
maintains, starting from the empty cache), every `SearchArtists` result is
ordered by non-increasing popularity; every event-search result is
two-level sorted (upcoming-first, ascending start time within each
partition) with respect to SOME reference time — the clock of the call
that computed it — and freshly computed (cache-miss or cache-disabled)
event results are sorted with respect to the current call's `now`; the
operations preserve cache well-formedness. A cache-hit reply may violate
the partition property w.r.t. the current clock (see the counterexample). -/
theorem search_results_sorted (m : MegaAggregator) (q aName city : String) (lim : Int)
    (srsA srsE srsL : List SourceResult) (now : GoTime) (el : GoDuration)
    (hg : CacheGood m.cache) :
    popSorted (m.SearchArtists q lim srsA now el).1.1.artists
    ∧ CacheGood (m.SearchArtists q lim srsA now el).2.cache
    ∧ (∃ t, eventsSortedAt t (m.SearchEvents aName lim srsE now el).1.1.events)
    ∧ CacheGood (m.SearchEvents aName lim srsE now el).2.cache
    ∧ (eventCacheMiss m aName "" lim now →
        eventsSortedAt now (m.SearchEvents aName lim srsE now el).1.1.events)
    ∧ (∃ t, eventsSortedAt t (m.SearchEventsByLocation city lim srsL now el).1.1.events)
    ∧ CacheGood (m.SearchEventsByLocation city lim srsL now el).2.cache
    ∧ (eventCacheMiss m "" city lim now →
        eventsSortedAt now (m.SearchEventsByLocation city lim srsL now el).1.1.events) := by
  obtain ⟨hA1, hA2⟩ := searchArtists_sorted_good m q lim srsA now el hg
  obtain ⟨hE1, hE2, hE3⟩ := searchEvents_sorted_good m aName lim srsE now el hg
  obtain ⟨hL1, hL2, hL3⟩ := searchEventsByLocation_sorted_good m city lim srsL now el hg
  exact ⟨hA1, hA2, hE1, hE2, hE3, hL1, hL2, hL3⟩

/-- C4 witness: with caching disabled (well-formedness trivially holds)
and two sources answering, the fresh artist result is sorted by
non-increasing popularity. -/
theorem search_results_sorted_witness :
    popSorted (aggDedupNoCache.SearchArtists "Radiohead" 10
        [resultSourceB, resultSourceA] 0 0).1.1.artists :=
  (search_results_sorted aggDedupNoCache "Radiohead" "x" "Berlin" 10
    [resultSourceB, resultSourceA] [] [] 0 0 trivial).1

end WhereItsAt
